import Mathlib

/-!
Shallow embedding of `src/cdrizzlemap.c` (the geometric core of the drizzle
resampling algorithm): coordinate mapping through a sampled pixel map,
golden-section inversion, convex polygon intersection, and the scanline
scanner.

Modelling conventions:
* C `double` values are modelled as exact rationals (`ℚ`).  The not-a-number
  sentinel of a pixel-map cell is modelled by `Option`: a cell is either
  `some (x, y)` (fully valid) or `none` (fully undefined), following the
  documented data-model invariant that both coordinates of a cell are NaN
  together.  NaN propagation through the bilinear interpolation formula is
  modelled by the `Option` match: the interpolated result is undefined
  exactly when one of the four contributing cells is undefined, which is
  what IEEE NaN propagation produces for finite weights.
* C casts `(int)x` truncate toward zero (`truncInt`); C `round` rounds half
  away from zero (`roundC`).
* Loops are modelled by structural recursion on an explicit fuel argument
  that matches the loop bound of the source, so every definition is
  executable and kernel-reducible.
* Reads of uninitialized C variables (`xout`/`yout` in `map_point`, the
  centre-of-mass accumulator `cm` in `orient_ccw`) are modelled by explicit
  extra parameters carrying the indeterminate initial contents.
-/

namespace Drizzle

/-- Constant `VERTEX_ATOL = 1.0e-12` (cdrizzlemap.c line 18). -/
def VERTEX_ATOL : ℚ := 1 / 1000000000000

/-- Constant `APPROX_ZERO = 1.0e3 * DBL_MIN` where `DBL_MIN = 2^-1022`
(cdrizzlemap.c line 19); the denominator below is the decimal expansion
of `2^1022`. -/
def APPROX_ZERO : ℚ :=
  1000 / 44942328371557897693232629769725618340449424473557664318357520289433168951375240783177119330601884005280028469967848339414697442203604155623211857659868531094441973356216371319075554900311523529863270738021251442209537670585615720368478277635206809290837627671146574559986811484619929076208839082406056034304

/-- Constant `MAX_INV_ERR = 0.03` (cdrizzlemap.c line 20). -/
def MAX_INV_ERR : ℚ := 3 / 100

/-- C cast `(int)q` for a double `q`: truncation toward zero. -/
def truncInt (q : ℚ) : ℤ := if 0 ≤ q then ⌊q⌋ else ⌈q⌉

/-- C `round`: round half away from zero. -/
def roundC (q : ℚ) : ℤ := if 0 ≤ q then ⌊q + 1/2⌋ else ⌈q - 1/2⌉

/-- The pixel map: a 2D grid of cells, each holding either a valid output
coordinate pair or the undefined (NaN) marker.  `cell i j` is the C element
`pixmap[j][i]` (column `i`, row `j`); `nx` is the number of columns
(`PyArray_DIMS[1]`), `ny` the number of rows (`PyArray_DIMS[0]`). -/
structure Pixmap where
  nx : ℤ
  ny : ℤ
  cell : ℤ → ℤ → Option (ℚ × ℚ)

/-- The fields of `struct driz_param_t` used by this file: the valid region
bounds and the pixel map. -/
structure DrizPar where
  xmin : ℤ
  xmax : ℤ
  ymin : ℤ
  ymax : ℤ
  pixmap : Pixmap

/-- The clamped base cell index used by `interpolate_point`
(cdrizzlemap.c lines 104-121): truncate, then clamp into `[0, dim-2]`. -/
def clampBase (xin : ℚ) (dim : ℤ) : ℤ :=
  let i0 := truncInt xin
  let n2 := dim - 2
  if i0 < 0 then 0 else if i0 > n2 then n2 else i0

/-- Model of `interpolate_point` (cdrizzlemap.c lines 89-150): bilinear interpolation
between the four grid cells surrounding `(xin, yin)`, after clamping the
base cell index.  Returns `none` (C status 1) when the result is NaN, which
for finite weights happens exactly when one of the four contributing cells
is undefined. -/
def interpolate_point (pm : Pixmap) (xin yin : ℚ) : Option (ℚ × ℚ) :=
  let i0 := clampBase xin pm.nx
  let j0 := clampBase yin pm.ny
  let x := xin - i0
  let y := yin - j0
  let x1 := 1 - x
  let y1 := 1 - y
  match pm.cell i0 j0, pm.cell (i0+1) j0, pm.cell i0 (j0+1), pm.cell (i0+1) (j0+1) with
  | some (f00, g00), some (f10, g10), some (f01, g01), some (f11, g11) =>
      some (f00 * x1 * y1 + f10 * x * y1 + f01 * x1 * y + f11 * x * y,
            g00 * x1 * y1 + g10 * x * y1 + g01 * x1 * y + g11 * x * y)
  | _, _, _, _ => none

/-- Model of `map_pixel` (cdrizzlemap.c lines 162-180): direct read of the grid cell,
status 1 (here `none`) when the stored pair is NaN. -/
def map_pixel (pm : Pixmap) (i j : ℤ) : Option (ℚ × ℚ) :=
  pm.cell i j

/-- Model of `map_pixel_fwd` (cdrizzlemap.c lines 183-189): same direct read. -/
def map_pixel_fwd (pm : Pixmap) (i j : ℤ) : Option (ℚ × ℚ) :=
  pm.cell i j

/-- Model of `map_point` (cdrizzlemap.c lines 201-226).  `uninit` carries the
indeterminate initial contents of the local variables `xout`, `yout`:
on the integral in-region path the source calls `map_pixel` (which writes
`xyout` correctly) but then overwrites `xyout[0..1]` with `xout`, `yout`
(lines 222-223), which were never assigned on that path.  Result `none`
models return status 1. -/
def map_point (par : DrizPar) (uninit : ℚ × ℚ) (xyin : ℚ × ℚ) : Option (ℚ × ℚ) :=
  let i := truncInt xyin.1
  let j := truncInt xyin.2
  if (i : ℚ) = xyin.1 ∧ (j : ℚ) = xyin.2 then
    if par.xmin ≤ i ∧ i ≤ par.xmax ∧ par.ymin ≤ j ∧ j ≤ par.ymax then
      match map_pixel par.pixmap i j with
      | some _ => some uninit
      | none => none
    else
      none
  else
    interpolate_point par.pixmap xyin.1 xyin.2

/-- Model of `map_point_new` (cdrizzlemap.c lines 229-242): direct array access for
integral positions, interpolation otherwise. -/
def map_point_new (par : DrizPar) (xin yin : ℚ) : Option (ℚ × ℚ) :=
  let i := truncInt xin
  let j := truncInt yin
  if (i : ℚ) = xin ∧ (j : ℚ) = yin then
    map_pixel_fwd par.pixmap i j
  else
    interpolate_point par.pixmap xin yin

/-- Model of `eval_inversion` (cdrizzlemap.c lines 245-258): forward-map `(x, y)` by
interpolation and return the squared distance to `xyref`; `none` (status 1)
when the forward mapping is undefined. -/
def eval_inversion (par : DrizPar) (x y : ℚ) (xyref : ℚ × ℚ) : Option ℚ :=
  match interpolate_point par.pixmap x y with
  | none => none
  | some (xout, yout) =>
      some ((xout - xyref.1) * (xout - xyref.1) + (yout - xyref.2) * (yout - xyref.2))

/-- Golden ratio constant `gr` of `invert_pixmap` (cdrizzlemap.c line 266),
the exact rational value of the decimal literal in the source. -/
def gr : ℚ := 6180339887498948482 / 10 ^ 19

/-- State of the golden-section loop of `invert_pixmap`: the bracketing
rectangle, the tracked widths `dx`, `dy`, and the iteration counter. -/
structure InvState where
  xmin : ℚ
  xmax : ℚ
  ymin : ℚ
  ymax : ℚ
  dx : ℚ
  dy : ℚ
  niter : ℕ
deriving DecidableEq, Repr

/-- One iteration of the golden-section loop of `invert_pixmap`
(cdrizzlemap.c lines 282-309); `none` when an `eval_inversion` call fails,
which makes the whole inversion return 1 immediately. -/
def invStep (par : DrizPar) (xyout : ℚ × ℚ) (st : InvState) : Option InvState :=
  let x1 := st.xmax - gr * st.dx
  let x2 := st.xmin + gr * st.dx
  let y1 := st.ymax - gr * st.dy
  let y2 := st.ymin + gr * st.dy
  match eval_inversion par x1 y1 xyout, eval_inversion par x1 y2 xyout,
        eval_inversion par x2 y1 xyout, eval_inversion par x2 y2 xyout with
  | some d11, some d12, some d21, some d22 =>
      let b :=
        if d11 < d12 ∧ d11 < d21 ∧ d11 < d22 then
          (st.xmin, x2, st.ymin, y2)
        else if d12 < d11 ∧ d12 < d21 ∧ d12 < d22 then
          (st.xmin, x2, y1, st.ymax)
        else if d21 < d11 ∧ d21 < d12 ∧ d21 < d22 then
          (x1, st.xmax, st.ymin, y2)
        else
          (x1, st.xmax, y1, st.ymax)
      some ⟨b.1, b.2.1, b.2.2.1, b.2.2.2, b.2.1 - b.1, b.2.2.2 - b.2.2.1,
            st.niter + 1⟩
  | _, _, _, _ => none

/-- The `while` loop of `invert_pixmap` (cdrizzlemap.c line 281):
`while ((dx > MAX_INV_ERR || dy > MAX_INV_ERR) && niter < nmax_iter)`.
The fuel argument only drives the structural recursion; the loop guard is
the source's own condition (the initial call passes fuel 50 = nmax_iter,
which always suffices since `niter` grows by one per iteration). -/
def invGo (par : DrizPar) (xyout : ℚ × ℚ) : ℕ → InvState → Option InvState
  | 0, st => some st
  | fuel + 1, st =>
      if (st.dx > MAX_INV_ERR ∨ st.dy > MAX_INV_ERR) ∧ st.niter < 50 then
        match invStep par xyout st with
        | none => none
        | some st' => invGo par xyout fuel st'
      else
        some st

/-- Initial loop state of `invert_pixmap` (cdrizzlemap.c lines 272-279):
note that `dx`, `dy` start as `xmax`, `ymax` (not as the widths). -/
def invInit (par : DrizPar) : InvState :=
  let xmin : ℚ := (par.xmin : ℚ) - 1/2
  let xmax : ℚ := (par.xmax : ℚ) + 1/2
  let ymin : ℚ := (par.ymin : ℚ) - 1/2
  let ymax : ℚ := (par.ymax : ℚ) + 1/2
  ⟨xmin, xmax, ymin, ymax, xmax, ymax, 0⟩

/-- The final loop state of `invert_pixmap`, `none` when an
`eval_inversion` call failed mid-loop. -/
def invFinalSt (par : DrizPar) (xyout : ℚ × ℚ) : Option InvState :=
  invGo par xyout 50 (invInit par)

/-- Model of `invert_pixmap` (cdrizzlemap.c lines 261-318): returns
`(status, some centre)` after the loop (the centre of the final bracketing
rectangle is always written, status 1 when `niter` reached 50), or
`(1, none)` when an `eval_inversion` call failed (in which case the source
returns before writing `xyin`). -/
def invert_pixmap (par : DrizPar) (xyout : ℚ × ℚ) : ℕ × Option (ℚ × ℚ) :=
  match invFinalSt par xyout with
  | none => (1, none)
  | some st =>
      ((if st.niter = 50 then 1 else 0),
       some ((st.xmin + st.xmax) / 2, (st.ymin + st.ymax) / 2))

/-- Model of `struct vertex`: a polygon vertex. -/
structure Vertex where
  x : ℚ
  y : ℚ
deriving DecidableEq, Repr

/-- List lookup modelling a read of the fixed-capacity vertex array
`p->v[i]`; an index at or beyond the valid count returns the placeholder
`(0, 0)` (stale storage in C). -/
def vget (l : List Vertex) (i : ℕ) : Vertex := l.getD i ⟨0, 0⟩

/-- Model of `mod` (cdrizzlemap.c lines 325-329): `(a + b) % b`, which for
`b > 0` and `a >= -b` is the Python-style modulus. -/
def cmod (a : ℤ) (b : ℕ) : ℕ := ((a + b) % (b : ℤ)).toNat

/-- Model of `equal_vertices` (cdrizzlemap.c lines 333-336). -/
def equal_vertices (a b : Vertex) (atol : ℚ) : Prop :=
  |a.x - b.x| < atol ∧ |a.y - b.y| < atol

instance (a b : Vertex) (atol : ℚ) : Decidable (equal_vertices a b atol) := by
  unfold equal_vertices; infer_instance

/-- Model of `area` (cdrizzlemap.c lines 339-342): z-component of the cross
product. -/
def area (a b : Vertex) : ℚ := a.x * b.y - a.y * b.x

/-- Model of `is_point_in_hp` (cdrizzlemap.c lines 348-353). -/
def is_point_in_hp (pt v_ v : Vertex) : Prop :=
  area v pt - area v_ pt - area v v_ ≥ -APPROX_ZERO

instance (pt v_ v : Vertex) : Decidable (is_point_in_hp pt v_ v) := by
  unfold is_point_in_hp; infer_instance

/-- Model of `is_point_strictly_in_hp` (cdrizzlemap.c lines 357-361). -/
def is_point_strictly_in_hp (pt v_ v : Vertex) : Prop :=
  area v pt - area v_ pt - area v v_ > APPROX_ZERO

instance (pt v_ v : Vertex) : Decidable (is_point_strictly_in_hp pt v_ v) := by
  unfold is_point_strictly_in_hp; infer_instance

/-- Model of `is_poly_contained` (cdrizzlemap.c lines 366-385): every vertex of `p`
lies in every edge half-plane of `q`.  Edge `i` of `q` runs from
`q[i-1 mod]` to `q[i]`, starting with the edge from the last vertex. -/
def is_poly_contained (p q : List Vertex) : Bool :=
  (List.range q.length).all fun i =>
    let v_ := vget q (if i = 0 then q.length - 1 else i - 1)
    let v := vget q i
    p.all fun pt => decide (is_point_in_hp pt v_ v)

/-- Modelled from the spec: `IMAGE_OUTLINE_NPTS` is defined in
`cdrizzlemap.h`, which is not among the provided sources; the spec states
the polygon capacity as `2 x 8 = 16`, so the macro value is 8. -/
def IMAGE_OUTLINE_NPTS : ℕ := 8

/-- Model of `append_vertex` (cdrizzlemap.c lines 391-404): skip a vertex equal to
the current last vertex (status 0), fail on a vertex equal to the first
vertex (status 1), fail when the capacity `2*IMAGE_OUTLINE_NPTS` is
reached, otherwise append. -/
def append_vertex (pv : List Vertex) (v : Vertex) : ℕ × List Vertex :=
  if 0 < pv.length ∧ equal_vertices (vget pv (pv.length - 1)) v VERTEX_ATOL then
    (0, pv)
  else if 0 < pv.length ∧ equal_vertices (vget pv 0) v VERTEX_ATOL then
    (1, pv)
  else if pv.length ≥ 2 * IMAGE_OUTLINE_NPTS then
    (1, pv)
  else
    (0, pv ++ [v])

/-- Model of `simplify_polygon` (cdrizzlemap.c lines 409-442): keep vertex `k` when
the incoming/outgoing edge cross product is above `APPROX_ZERO` in
magnitude and the chord `v[k+1] - v[k-1]` is longer than `VERTEX_ATOL`
(the source compares `sqrt(dp.dp) > VERTEX_ATOL`; the model compares the
squares, which is equivalent since both sides are nonnegative). -/
def simplify_polygon (p : List Vertex) : List Vertex :=
  if p.length < 3 then p
  else
    (List.range p.length).filterMap fun k =>
      let pv_ := vget p ((k + p.length - 1) % p.length)
      let pv := vget p k
      let pvnxt := vget p ((k + 1) % p.length)
      let dp : Vertex := ⟨pvnxt.x - pv_.x, pvnxt.y - pv_.y⟩
      let dq : Vertex := ⟨pv.x - pv_.x, pv.y - pv_.y⟩
      if |area dp dq| > APPROX_ZERO ∧ dp.x * dp.x + dp.y * dp.y > VERTEX_ATOL * VERTEX_ATOL then
        some pv
      else
        none

/-- Model of `orient_ccw` (cdrizzlemap.c lines 445-478).  `cmInit` carries the
indeterminate initial contents of the local accumulator `cm`, which the
source never zeroes before `cm.x += ...` (lines 448, 453-455).  The swap
loop over `k < npv/2` reverses the vertex order. -/
def orient_ccw (cmInit : Vertex) (p : List Vertex) : List Vertex :=
  if p.length < 3 then p
  else
    let n : ℚ := (p.length : ℚ)
    let cmx := (p.foldl (fun acc v => acc + v.x) cmInit.x) / n
    let cmy := (p.foldl (fun acc v => acc + v.y) cmInit.y) / n
    let v1 := vget p 0
    let v2 := vget p 1
    if area ⟨v1.x - cmx, v1.y - cmy⟩ ⟨v2.x - cmx, v2.y - cmy⟩ ≥ 0 then p
    else p.reverse

/-- The signed area referred to by the orientation invariant of the spec:
the sum of cross products of cyclically consecutive vertex pairs. -/
def signedArea (p : List Vertex) : ℚ :=
  (List.range p.length).foldl
    (fun acc k => acc + area (vget p k) (vget p ((k + 1) % p.length))) 0

/-- State of the edge-tracing loop of `intersect_convex_polygons`
(cdrizzlemap.c lines 485-516): cursors `ip`, `iq`, the cached edge
endpoints (the C pointers `pv_`, `pv`, `qv_`, `qv`), the first-intersection
bookkeeping, the `inside` flag, and the output polygon under construction.
`iters` counts loop-body executions and `pReads` records every index used
to read a vertex of `p` when the `p` cursor advances; both are ghost fields
that influence nothing. `broke` records that the C `break` ran. -/
structure WalkState where
  ip : ℕ
  iq : ℕ
  pv_ : Vertex
  pv : Vertex
  qv_ : Vertex
  qv : Vertex
  firstK : ℤ
  firstIntersect : Vertex
  inside : ℤ
  pq : List Vertex
  iters : ℕ
  pReads : List ℕ
  broke : Bool
deriving DecidableEq, Repr

/-- Model of `if (append_vertex(pq, v)) break;` — append and report whether the
source would break. -/
def wAppend (st : WalkState) (v : Vertex) : WalkState × Bool :=
  let r := append_vertex st.pq v
  ({ st with pq := r.2 }, r.1 = 1)

/-- Advance of the `p` cursor: `ip += 1; pv_ = pv; pv = p->v + mod(ip, m)`.
The modulus `m` is passed explicitly because the source uses `p->npv` at
lines 573/583 but `q->npv` at line 607. -/
def advP (p : List Vertex) (m : ℕ) (st : WalkState) : WalkState :=
  let ip' := st.ip + 1
  let idx := cmod (ip' : ℤ) m
  { st with ip := ip', pv_ := st.pv, pv := vget p idx, pReads := st.pReads ++ [idx] }

/-- Advance of the `q` cursor: `iq += 1; qv_ = qv; qv = q->v + mod(iq, q->npv)`. -/
def advQ (q : List Vertex) (st : WalkState) : WalkState :=
  let iq' := st.iq + 1
  { st with iq := iq', qv_ := st.qv, qv := vget q (cmod (iq' : ℤ) q.length) }

/-- The scalar quantities of one edge-tracing iteration (cdrizzlemap.c
lines 517-532): the line-line intersection parameters `t`, `u`, the raw
signed area `sa = dp x dq`, and the sign-normalized denominator `d`
(with `t`, `u` negated alongside), returned as `(t, u, sa, d)`. -/
def walkScalars (st : WalkState) : ℚ × ℚ × ℚ × ℚ :=
  let dp : Vertex := ⟨st.pv.x - st.pv_.x, st.pv.y - st.pv_.y⟩
  let dq : Vertex := ⟨st.qv.x - st.qv_.x, st.qv.y - st.qv_.y⟩
  let t0 := (st.pv_.y - st.qv_.y) * dq.x - (st.pv_.x - st.qv_.x) * dq.y
  let u0 := (st.pv_.y - st.qv_.y) * dp.x - (st.pv_.x - st.qv_.x) * dp.y
  let sa := area dp dq
  if 0 ≤ sa then (t0, u0, sa, sa) else (-t0, -u0, sa, -sa)

/-- The `inside`-flag update closing the crossing block (cdrizzlemap.c
lines 557-561), applied when the block did not `break`. -/
def wFoundFinish (pin qin : Bool) (r : WalkState × Bool) : WalkState × Bool :=
  if r.2 then r
  else ({ r.1 with inside := if pin then 1 else if qin then -1 else r.1.inside },
        false)

/-- The C idiom `if (append_vertex(pq, v)) break; <advance>` — on an
append failure record the `break`, otherwise run the cursor advance. -/
def wEmitThen (r : WalkState × Bool) (next : WalkState → WalkState) : WalkState :=
  if r.2 then { r.1 with broke := true } else next r.1

/-- The intersection-vertex handling of one edge-tracing iteration
(cdrizzlemap.c lines 537-562): when the current edge pair crosses, emit
the crossing point — or handle the revisit of the first crossing — and
update the `inside` flag from the half-plane flags `pin`
(`pv_in_hpdq`) and `qin` (`qv_in_hpdp`).  Returns the updated state and
whether the source would `break`. -/
def walkFound (k : ℕ) (t u d : ℚ) (pin qin : Bool) (st : WalkState) :
    WalkState × Bool :=
  if 0 ≤ t ∧ t ≤ d ∧ 0 ≤ u ∧ u ≤ d ∧ d > APPROX_ZERO then
    let tt := t / d
    let vi : Vertex := ⟨st.pv_.x + (st.pv.x - st.pv_.x) * tt,
                        st.pv_.y + (st.pv.y - st.pv_.y) * tt⟩
    wFoundFinish pin qin
      (if st.firstK < 0 then
        wAppend { st with firstIntersect := vi, firstK := (k : ℤ) } vi
      else if equal_vertices st.firstIntersect vi VERTEX_ATOL then
        if (k : ℤ) > st.firstK + 1 then (st, true)
        else ({ st with firstK := (k : ℤ) }, false)
      else
        wAppend st vi)
  else (st, false)

/-- The cursor-advance step of one edge-tracing iteration (cdrizzlemap.c
lines 564-609), driven by the sign of the raw signed area and the
half-plane flags. -/
def walkAdvance (p q : List Vertex) (sa d : ℚ) (pin qin : Bool)
    (st2 : WalkState) : WalkState :=
  if d < 1 / 1000000000000 ∧ ¬pin ∧ ¬qin then
    if st2.inside = 1 then advQ q st2 else advP p p.length st2
  else if 0 ≤ sa then
    if qin then
      if st2.inside = 1 then
        wEmitThen (wAppend st2 st2.pv) (advP p p.length)
      else advP p p.length st2
    else
      if st2.inside = -1 then
        wEmitThen (wAppend st2 st2.qv) (advQ q)
      else advQ q st2
  else
    if pin then
      if st2.inside = -1 then
        wEmitThen (wAppend st2 st2.qv) (advQ q)
      else advQ q st2
    else
      if st2.inside = 1 then
        -- BUG preserved from the source (line 607): the p cursor is
        -- reduced modulo q->npv, not p->npv.
        wEmitThen (wAppend st2 st2.pv) (advP p q.length)
      else advP p q.length st2

/-- One body execution (iteration `k`) of the edge-tracing loop of
`intersect_convex_polygons` (cdrizzlemap.c lines 516-609), without the
ghost iteration-counter update (added by `walkBody`): compute the
scalars and the two half-plane tests of lines 517-535, handle a crossing
(lines 537-562), then advance a cursor (lines 564-609) unless the
crossing handler hit a `break`. -/
def walkBodyAux (p q : List Vertex) (k : ℕ) (st : WalkState) : WalkState :=
  let s := walkScalars st
  let pin : Bool := decide (is_point_strictly_in_hp st.qv_ st.qv st.pv)
  let qin : Bool := decide (is_point_strictly_in_hp st.pv_ st.pv st.qv)
  let fstep := walkFound k s.1 s.2.1 s.2.2.2 pin qin st
  if fstep.2 then { fstep.1 with broke := true }
  else walkAdvance p q s.2.2.1 s.2.2.2 pin qin fstep.1

/-- One body execution of the edge-tracing loop, with the ghost iteration
counter incremented. -/
def walkBody (p q : List Vertex) (k : ℕ) (st0 : WalkState) : WalkState :=
  let st1 := walkBodyAux p q k st0
  { st1 with iters := st0.iters + 1 }

/-- The loop `for (k = 0; k <= 2*(p->npv + q->npv); k++)` with `break`
modelled by the `broke` flag; the fuel is the number of admissible values
of `k`, namely `2*(p->npv + q->npv) + 1`. -/
def walkGo (p q : List Vertex) : ℕ → ℕ → WalkState → WalkState
  | 0, _, st => st
  | fuel + 1, k, st =>
      if st.broke then st
      else walkGo p q fuel (k + 1) (walkBody p q k st)

/-- Result of `intersect_convex_polygons`, with the ghost iteration count
and `p`-read trace of the edge-tracing loop. -/
structure IntersectResult where
  status : ℕ
  pq : List Vertex
  iters : ℕ
  pReads : List ℕ
deriving DecidableEq, Repr

/-- Model of `intersect_convex_polygons` (cdrizzlemap.c lines 481-615); `cmP`, `cmQ`
carry the indeterminate accumulator contents of the two `orient_ccw` calls
(lines 495-496).  On the `npv < 3` failure the source leaves `pq`
unwritten (modelled as the empty list). -/
def intersect_convex_polygons (cmP cmQ : Vertex) (p0 q0 : List Vertex) :
    IntersectResult :=
  if p0.length < 3 ∨ q0.length < 3 then ⟨1, [], 0, []⟩
  else
    let p := orient_ccw cmP p0
    let q := orient_ccw cmQ q0
    if is_poly_contained p q then ⟨0, simplify_polygon p, 0, []⟩
    else if is_poly_contained q p then ⟨0, simplify_polygon q, 0, []⟩
    else
      let st0 : WalkState :=
        ⟨0, 0, vget p (p.length - 1), vget p 0, vget q (q.length - 1), vget q 0,
         -2, ⟨0, 0⟩, 0, [], 0, [], false⟩
      let stf := walkGo p q (2 * (p.length + q.length) + 1) 0 st0
      ⟨0, simplify_polygon stf.pq, stf.iters, stf.pReads⟩

/-- Model of `struct edge`: a polygon edge prepared for scanning. -/
structure Edge where
  v1 : Vertex
  v2 : Vertex
  p : ℤ
  m : ℚ
  b : ℚ
  c : ℚ
deriving DecidableEq, Repr

/-- Placeholder edge returned for a read past the end of an edge array. -/
def edge0 : Edge := ⟨⟨0, 0⟩, ⟨0, 0⟩, 0, 0, 0, 0⟩

/-- Model of `init_edge` (cdrizzlemap.c lines 618-626).  The source divides by
`v2.y - v1.y` in doubles; the model uses total rational division (zero
denominator gives 0 instead of an IEEE infinity), which the claims below
never exercise.  `copysign(0.5 + 0.5*fabs(m), position)` carries the sign
of the side tag. -/
def init_edge (v1 v2 : Vertex) (position : ℤ) : Edge :=
  let m := (v2.x - v1.x) / (v2.y - v1.y)
  let b := (v1.x * v2.y - v1.y * v2.x) / (v2.y - v1.y)
  let c := b - (if 0 ≤ position then 1/2 + |m| / 2 else -(1/2 + |m| / 2))
  ⟨v1, v2, position, m, b, c⟩

/-- Model of `struct scanner`: the two edge chains, the live cursors (`none` models
a NULL cursor pointer), the polygon y-range, and the clip bounds copied
from the parameters. -/
structure Scanner where
  left_edges : List Edge
  right_edges : List Edge
  left : Option ℕ
  right : Option ℕ
  min_y : ℚ
  max_y : ℚ
  xmin : ℤ
  xmax : ℤ
  ymin : ℤ
  ymax : ℤ
  overlap_valid : Bool
deriving DecidableEq, Repr

/-- The minimum scan of `init_scanner` (cdrizzlemap.c lines 647-654):
running over the remaining vertices with a strict `<`, carrying the
current best index and value. -/
def scanMin : List Vertex → ℕ → ℕ → ℚ → ℕ × ℚ
  | [], _, bi, bv => (bi, bv)
  | v :: rest, k, bi, bv =>
      if v.y < bv then scanMin rest (k + 1) k v.y else scanMin rest (k + 1) bi bv

/-- The maximum scan of `init_scanner` (cdrizzlemap.c lines 670-677). -/
def scanMax : List Vertex → ℕ → ℕ → ℚ → ℕ × ℚ
  | [], _, bi, bv => (bi, bv)
  | v :: rest, k, bi, bv =>
      if v.y > bv then scanMax rest (k + 1) k v.y else scanMax rest (k + 1) bi bv

/-- Model of `init_scanner` (cdrizzlemap.c lines 629-726).  `ov` is the
`overlap_valid` value the caller stored in the scanner before the call
(the source only assigns it on the `npv < 3` failure branch).  On that
failure branch the source leaves `min_y`, `max_y` and the clip bounds
unassigned (stack junk); the model uses 0 for them. -/
def init_scanner (p : List Vertex) (par : DrizPar) (ov : Bool) : ℕ × Scanner :=
  if p.length < 3 then
    (1, ⟨[], [], none, none, 0, 0, 0, 0, 0, 0, false⟩)
  else
    let n := p.length
    let mn := scanMin (p.drop 1) 1 0 (vget p 0).y
    let min_left0 := mn.1
    let min_y := mn.2
    let i1 := cmod ((min_left0 : ℤ) - 1) n
    let i2 := cmod ((min_left0 : ℤ) + 1) n
    let min_right0 := if (vget p i1).y < (vget p i2).y then i1 else i2
    let mlr :=
      if (vget p min_right0).y ≤
          min_y * (1 + (if min_y < 0 then -VERTEX_ATOL else VERTEX_ATOL)) then
        if (vget p min_left0).x > (vget p min_right0).x then (min_right0, min_left0)
        else (min_left0, min_right0)
      else (min_left0, min_left0)
    let min_left := mlr.1
    let min_right := mlr.2
    let mx := scanMax (p.drop 1) 1 0 (vget p 0).y
    let max_right0 := mx.1
    let max_y := mx.2
    let j1 := cmod ((max_right0 : ℤ) - 1) n
    let j2 := cmod ((max_right0 : ℤ) + 1) n
    let max_left0 := if (vget p j1).y > (vget p j2).y then j1 else j2
    let mlr2 :=
      if (vget p max_left0).y ≥
          max_y * (1 - (if max_y < 0 then -VERTEX_ATOL else VERTEX_ATOL)) then
        if (vget p max_left0).x > (vget p max_right0).x then (max_right0, max_left0)
        else (max_left0, max_right0)
      else (max_right0, max_right0)
    let max_left := mlr2.1
    let max_right := mlr2.2
    let minL : ℤ := if max_left > min_left then (min_left : ℤ) + n else min_left
    let nleft : ℤ := minL - max_left
    let left_edges := (List.range nleft.toNat).map fun k =>
      let a := cmod (minL - k) n
      let b := cmod ((a : ℤ) - 1) n
      init_edge (vget p a) (vget p b) (-1)
    let maxR : ℤ := if max_right < min_right then (max_right : ℤ) + n else max_right
    let nright : ℤ := maxR - min_right
    let right_edges := (List.range nright.toNat).map fun k =>
      let a := cmod ((min_right : ℤ) + k) n
      let b := cmod ((a : ℤ) + 1) n
      init_edge (vget p a) (vget p b) 1
    (0, ⟨left_edges, right_edges, some 0, some 0, min_y, max_y,
         par.xmin, par.xmax, par.ymin, par.ymax, ov⟩)

/-- One of the cursor-advancing `while` loops of `get_scanline_limits`
(cdrizzlemap.c lines 767-774, 776-783, 789-797, 800-808): advance the
cursor while `t > limit(edge)`; when the cursor already sits on the last
edge of the chain, the scan ends (`none`, modelling the NULL assignment
and `return 1`).  The fuel starts at `edges.length + 1`, enough for every
reachable cursor position. -/
def advanceCursor (edges : List Edge) (limit : Edge → ℚ) (t : ℚ) :
    ℕ → ℕ → Option ℕ
  | 0, i => some i
  | fuel + 1, i =>
      if t > limit (edges.getD i edge0) then
        if i = edges.length - 1 then none
        else advanceCursor edges limit t fuel (i + 1)
      else some i

/-- Model of `get_scanline_limits` (cdrizzlemap.c lines 743-845).  Returns the
status code (0 no error, 1 scan ended, 2 out of bounds, 3 zero-width
limits), the written x-limits when the source writes them, and the
updated scanner. -/
def get_scanline_limits (s : Scanner) (y : ℤ) : ℕ × Option (ℤ × ℤ) × Scanner :=
  if s.ymax ≥ s.ymin ∧ (y < 0 ∨ y > s.ymax) then (2, none, s)
  else
    let pyb : ℚ := (y : ℚ) - 1/2
    let pyt : ℚ := (y : ℚ) + 1/2
    if pyt ≤ s.min_y ∨ pyb ≥ s.max_y + 1 then (2, none, s)
    else
      match s.left, s.right with
      | some li, some ri =>
        (match advanceCursor s.left_edges (fun e => e.v2.y) pyb
            (s.left_edges.length + 1) li with
        | none => (1, none, { s with left := none, right := none })
        | some li1 =>
          match advanceCursor s.right_edges (fun e => e.v2.y) pyb
              (s.right_edges.length + 1) ri with
          | none => (1, none, { s with left := none, right := none })
          | some ri1 =>
            let eL := s.left_edges.getD li1 edge0
            let eR := s.right_edges.getD ri1 edge0
            let xlb := eL.m * (y : ℚ) + eL.c - MAX_INV_ERR
            let xrb := eR.m * (y : ℚ) + eR.c + MAX_INV_ERR
            match advanceCursor s.left_edges (fun e => e.v2.y + 1/2 + MAX_INV_ERR)
                pyt (s.left_edges.length + 1) li1 with
            | none => (1, none, { s with left := none, right := none })
            | some li2 =>
              match advanceCursor s.right_edges
                  (fun e => e.v2.y + 1/2 + MAX_INV_ERR) pyt
                  (s.right_edges.length + 1) ri1 with
              | none => (1, none, { s with left := none, right := none })
              | some ri2 =>
                let eL2 := s.left_edges.getD li2 edge0
                let eR2 := s.right_edges.getD ri2 edge0
                let xlt := eL2.m * (y : ℚ) + eL2.c - MAX_INV_ERR
                let xrt := eR2.m * (y : ℚ) + eR2.c + MAX_INV_ERR
                let cl :=
                  if s.xmax ≥ s.xmin then
                    (max xlb (s.xmin : ℚ), max xlt (s.xmin : ℚ),
                     min xrb (s.xmax : ℚ), min xrt (s.xmax : ℚ))
                  else (xlb, xlt, xrb, xrt)
                let xlb := cl.1
                let xlt := cl.2.1
                let xrb := cl.2.2.1
                let xrt := cl.2.2.2
                let s' := { s with left := some li2, right := some ri2 }
                if xlt ≥ xrt then
                  if xlb ≥ xrb then (3, some (roundC xlb, roundC xrb), s')
                  else (0, some (roundC xlb, roundC xrb), s')
                else if xlb ≥ xrb then (0, some (roundC xlt, roundC xrt), s')
                else (0, some (roundC (max xlb xlt), roundC (min xrb xrt)), s'))
      | _, _ => (1, none, s)

/-- Result of `init_image_scanner`: the return status, the output row
range, the initialized scanner, and (as a ghost field used only by the
statements below) the polygon handed to `init_scanner`. -/
structure IIScanResult where
  status : ℕ
  ymin : ℤ
  ymax : ℤ
  s : Scanner
  poly : List Vertex
deriving Repr

/-- The `_setup_scanner` tail of `init_image_scanner` (cdrizzlemap.c
lines 949-956): initialize the scanner from the polygon and compute
`*ymin = MAX(0, (int)(s->min_y + 0.5 + 2.0 * MAX_INV_ERR))` and
`*ymax = MIN(s->ymax, (int)(s->max_y + 2.0 * MAX_INV_ERR))`. -/
def setupScanner (par : DrizPar) (inpqF : List Vertex) (ov : Bool) : IIScanResult :=
  let r := init_scanner inpqF par ov
  ⟨r.1, max 0 (truncInt (r.2.min_y + 1/2 + 2 * MAX_INV_ERR)),
        min par.ymax (truncInt (r.2.max_y + 2 * MAX_INV_ERR)), r.2, inpqF⟩

/-- The vertex-inversion loop of `init_image_scanner` (cdrizzlemap.c
lines 939-944), via `map_to_input_vertex` (lines 862-883): invert each
intersection vertex back to the input frame; any nonzero `invert_pixmap`
status fails the whole loop.  Returns the successfully inverted prefix. -/
def invertVerts (par : DrizPar) : List Vertex → List Vertex → Bool × List Vertex
  | [], acc => (true, acc)
  | v :: rest, acc =>
      let r := invert_pixmap par (v.x, v.y)
      match r.2 with
      | none => (false, acc)
      | some xy =>
          if r.1 ≠ 0 then (false, acc)
          else invertVerts par rest (acc ++ [⟨xy.1, xy.2⟩])

/-- The polygon-construction phase of `init_image_scanner` (cdrizzlemap.c
lines 896-947): build the input bounding quadrilateral, forward-map it,
intersect with the output bounding quadrilateral, invert the result, and
orient it; returns the polygon handed to `init_scanner` together with the
`overlap_valid` flag.  On a mid-pipeline failure the polygon is the
partially updated `inpq` with its vertex count still 4. -/
def iisPoly (par : DrizPar) (odimy odimx : ℤ)
    (cmP cmQ cmPQ : Vertex) : List Vertex × Bool :=
  let inpq0 : List Vertex :=
    [⟨(par.xmin : ℚ) - 1/2, (par.ymin : ℚ) - 1/2⟩,
     ⟨(par.xmax : ℚ) + 1/2, (par.ymin : ℚ) - 1/2⟩,
     ⟨(par.xmax : ℚ) + 1/2, (par.ymax : ℚ) + 1/2⟩,
     ⟨(par.xmin : ℚ) - 1/2, (par.ymax : ℚ) + 1/2⟩]
  match inpq0.mapM (fun v => map_point_new par v.x v.y) with
  | none => (inpq0, false)
  | some pl =>
      let p : List Vertex := pl.map fun ab => ⟨ab.1, ab.2⟩
      let q : List Vertex :=
        [⟨-(1/2), -(1/2)⟩, ⟨(odimx : ℚ) - 1/2, -(1/2)⟩,
         ⟨(odimx : ℚ) - 1/2, (odimy : ℚ) - 1/2⟩, ⟨-(1/2), (odimy : ℚ) - 1/2⟩]
      let ir := intersect_convex_polygons cmP cmQ p q
      if ir.status ≠ 0 then (inpq0, false)
      else
        let iv := invertVerts par ir.pq []
        if iv.1 then (orient_ccw cmPQ iv.2, true)
        else
          ((List.range 4).map fun k =>
            if k < iv.2.length then vget iv.2 k else vget inpq0 k, false)

/-- Model of `init_image_scanner` (cdrizzlemap.c lines 886-957).  `odimy`, `odimx`
are the output buffer dimensions `PyArray_DIMS(par->output_data)[0..1]`;
`cmP`, `cmQ`, `cmPQ` carry the indeterminate `orient_ccw` accumulator
contents for the three call sites (two inside the intersection, one at
line 947). -/
def init_image_scanner (par : DrizPar) (odimy odimx : ℤ)
    (cmP cmQ cmPQ : Vertex) : IIScanResult :=
  setupScanner par (iisPoly par odimy odimx cmP cmQ cmPQ).1
    (iisPoly par odimy odimx cmP cmQ cmPQ).2

/-! ### Concrete instances used by the claim statements below -/

/-- A zero accumulator value for `orient_ccw` call sites (the value the
source evidently intends `cm` to start from). -/
def cm0 : Vertex := ⟨0, 0⟩

/-- A 2x2 identity pixel map: cell `(i, j)` holds `(i, j)`. -/
def pmId2 : Pixmap := ⟨2, 2, fun i j => some ((i : ℚ), (j : ℚ))⟩

/-- Parameters over the identity map with valid region `[0,1] x [0,1]`. -/
def parC2 : DrizPar := ⟨0, 1, 0, 1, pmId2⟩

/-- A 4x4 pixel map equal to the identity except that cell `(1, 1)` stores
`(10, 20)`. -/
def pmC1 : Pixmap :=
  ⟨4, 4, fun i j => if i = 1 ∧ j = 1 then some (10, 20) else some ((i : ℚ), (j : ℚ))⟩

/-- Parameters over `pmC1` with valid region `[0,3] x [0,3]`. -/
def parC1 : DrizPar := ⟨0, 3, 0, 3, pmC1⟩

/-- A clockwise triangle. -/
def triCW : List Vertex := [⟨0, 0⟩, ⟨0, 1⟩, ⟨1, 0⟩]

/-- A small counter-clockwise triangle near the origin. -/
def pT : List Vertex := [⟨0, 0⟩, ⟨1, 0⟩, ⟨0, 1⟩]

/-- A triangle far away from `pT` (the two are disjoint). -/
def qT : List Vertex := [⟨10, 10⟩, ⟨11, 10⟩, ⟨10, 11⟩]

/-- A counter-clockwise triangle (3 vertices). -/
def pC10 : List Vertex := [⟨0, 0⟩, ⟨4, 0⟩, ⟨2, 3⟩]

/-- A convex counter-clockwise pentagon (5 vertices) overlapping `pC10`. -/
def qC10 : List Vertex := [⟨1, -3⟩, ⟨3, -2⟩, ⟨3, 0⟩, ⟨1, 1⟩, ⟨-1, -1⟩]

/-- Parameters with clip region `[0,9] x [0,9]`. -/
def parS : DrizPar := ⟨0, 9, 0, 9, pmId2⟩

/-- A triangle whose top vertex has `y = 1.2`. -/
def triC4 : List Vertex := [⟨0, -(1/2)⟩, ⟨1, -(1/2)⟩, ⟨1/2, 12/10⟩]

/-- The scanner built from `triC4`. -/
def sC4 : Scanner := (init_scanner triC4 parS true).2

/-- Parameters whose clip y-range is `[5, 10]`. -/
def parC6 : DrizPar := ⟨0, 9, 5, 10, pmId2⟩

/-- A tall rectangle spanning `y` from `-0.5` to `10`. -/
def rectC6 : List Vertex := [⟨0, -(1/2)⟩, ⟨9, -(1/2)⟩, ⟨9, 10⟩, ⟨0, 10⟩]

/-- The scanner built from `rectC6` with clip y-range `[5, 10]`. -/
def sC6 : Scanner := (init_scanner rectC6 parC6 true).2

/-- A 3x3 pixel map that folds the y axis: cell `(i, j)` holds
`(i, min(j, 1))`, so every input row at `y >= 1` maps onto output row 1. -/
def pmC7 : Pixmap :=
  ⟨3, 3, fun i j => some ((i : ℚ), if j ≤ 1 then (j : ℚ) else 1)⟩

/-- Parameters over `pmC7` with valid region `[0,2] x [0,2]`. -/
def parC7 : DrizPar := ⟨0, 2, 0, 2, pmC7⟩

/-- A full `init_image_scanner` run over the folding map with an output
buffer of 2 rows and 3 columns. -/
def rC7 : IIScanResult := init_image_scanner parC7 2 3 cm0 cm0 cm0

/-- A polygon already filled to the capacity `2 * IMAGE_OUTLINE_NPTS`. -/
def big16 : List Vertex :=
  (List.range (2 * IMAGE_OUTLINE_NPTS)).map fun k => ⟨(k : ℚ), (k : ℚ) * (k : ℚ)⟩

/-- A sequence of `get_scanline_limits` calls on a scanner, threading the
scanner state; returns the status and written limits of every call. -/
def scanSeq (s : Scanner) : List ℤ → List (ℕ × Option (ℤ × ℤ))
  | [] => []
  | y :: ys =>
      let r := get_scanline_limits s y
      (r.1, r.2.1) :: scanSeq r.2.2 ys

/-- Minimum `y` coordinate over a vertex list (0 for the empty list). -/
def polyMinY : List Vertex → ℚ
  | [] => 0
  | v :: rest => rest.foldl (fun a w => min a w.y) v.y

/-- Maximum `y` coordinate over a vertex list (0 for the empty list). -/
def polyMaxY : List Vertex → ℚ
  | [] => 0
  | v :: rest => rest.foldl (fun a w => max a w.y) v.y

/-! ### Theorems -/

/-- C1: the claim says both `map_point` and `map_point_new` return exactly
the stored grid value at an integral in-region grid node.  `map_point_new`
does, but `map_point` computes the correct value in `map_pixel` and then
overwrites `xyout` with the never-assigned locals `xout`, `yout`
(cdrizzlemap.c lines 222-223), so the caller receives indeterminate data:
with `(xout, yout)` holding `(7, 8)`, the node `(1, 1)` whose cell stores
`(10, 20)` comes back as `(7, 8)` with success status. -/
theorem C1_map_point_clobbers_stored_value :
    pmC1.cell 1 1 = some (10, 20) ∧
    map_point parC1 (7, 8) (1, 1) = some (7, 8) ∧
    ((7 : ℚ), (8 : ℚ)) ≠ ((10 : ℚ), (20 : ℚ)) ∧
    map_point_new parC1 1 1 = some (10, 20) := by
  refine ⟨rfl, by decide, by decide, by decide⟩

/-- C5: after `orient_ccw` plus `simplify_polygon` the signed area of a
3-vertex polygon should be non-negative, but `orient_ccw` never
initializes its centre-of-mass accumulator `cm` (cdrizzlemap.c line 448:
`cm.x += ...` on an uninitialized local).  With the stack holding
`(-100, 0)` the clockwise triangle `triCW` is left clockwise and its
signed area stays `-1`; with the evidently intended zero initialization
the same triangle is reversed and the signed area is `+1`. -/
theorem C5_orient_ccw_reads_uninitialized_accumulator :
    triCW.length = 3 ∧
    signedArea (simplify_polygon (orient_ccw ⟨-100, 0⟩ triCW)) = -1 ∧
    signedArea (simplify_polygon (orient_ccw ⟨0, 0⟩ triCW)) = 1 := by
  refine ⟨rfl, by with_unfolding_all decide, by with_unfolding_all decide⟩

/-- C10: the claim says every advance reduces a polygon's cursor modulo
that polygon's own vertex count, keeping all reads inside `v[0..npv-1]`.
At cdrizzlemap.c line 607 the `p` cursor is reduced modulo `q->npv`
instead: intersecting the triangle `pC10` (3 vertices) with the pentagon
`qC10` (5 vertices) makes the walk read `p->v[i]` with `i >= 3`. -/
theorem C10_p_cursor_wrong_modulus :
    pC10.length = 3 ∧ qC10.length = 5 ∧
    ((intersect_convex_polygons cm0 cm0 pC10 qC10).pReads.any
      fun i => decide (pC10.length ≤ i)) = true := by
  refine ⟨rfl, rfl, by with_unfolding_all decide⟩

/-- C3 counterexample: the loop head (cdrizzlemap.c line 516) is
`for (k = 0; k <= 2 * (p->npv + q->npv); k++)`, an inclusive bound, so on
the disjoint triangles `pT`, `qT` (where nothing ever breaks) the body
runs `2*(3+3) + 1 = 13` times, exceeding the claimed bound `2*(|p|+|q|) = 12`. -/
theorem C3_counterexample_thirteen_iterations :
    pT.length = 3 ∧ qT.length = 3 ∧
    (intersect_convex_polygons cm0 cm0 pT qT).iters = 13 ∧
    ¬((intersect_convex_polygons cm0 cm0 pT qT).iters ≤ 2 * (pT.length + qT.length)) := by
  refine ⟨rfl, rfl, by with_unfolding_all decide, by with_unfolding_all decide⟩

/-- C8: the interpolation path returns UndefinedError (modelled `none`)
exactly when one of the four contributing cells is undefined (for exact
arithmetic the interpolated result is NaN in precisely that case), and on
success it returns the standard bilinear interpolant with fractional
weights `x1 = 1 - x`, `y1 = 1 - y`. -/
theorem C8_interpolate_point_contract (pm : Pixmap) (xin yin : ℚ) :
    (interpolate_point pm xin yin = none ↔
      (pm.cell (clampBase xin pm.nx) (clampBase yin pm.ny) = none ∨
       pm.cell (clampBase xin pm.nx + 1) (clampBase yin pm.ny) = none ∨
       pm.cell (clampBase xin pm.nx) (clampBase yin pm.ny + 1) = none ∨
       pm.cell (clampBase xin pm.nx + 1) (clampBase yin pm.ny + 1) = none)) ∧
    (∀ f00 g00 f10 g10 f01 g01 f11 g11 : ℚ,
      pm.cell (clampBase xin pm.nx) (clampBase yin pm.ny) = some (f00, g00) →
      pm.cell (clampBase xin pm.nx + 1) (clampBase yin pm.ny) = some (f10, g10) →
      pm.cell (clampBase xin pm.nx) (clampBase yin pm.ny + 1) = some (f01, g01) →
      pm.cell (clampBase xin pm.nx + 1) (clampBase yin pm.ny + 1) = some (f11, g11) →
      interpolate_point pm xin yin =
        some (f00 * (1 - (xin - clampBase xin pm.nx)) * (1 - (yin - clampBase yin pm.ny)) +
              f10 * (xin - clampBase xin pm.nx) * (1 - (yin - clampBase yin pm.ny)) +
              f01 * (1 - (xin - clampBase xin pm.nx)) * (yin - clampBase yin pm.ny) +
              f11 * (xin - clampBase xin pm.nx) * (yin - clampBase yin pm.ny),
              g00 * (1 - (xin - clampBase xin pm.nx)) * (1 - (yin - clampBase yin pm.ny)) +
              g10 * (xin - clampBase xin pm.nx) * (1 - (yin - clampBase yin pm.ny)) +
              g01 * (1 - (xin - clampBase xin pm.nx)) * (yin - clampBase yin pm.ny) +
              g11 * (xin - clampBase xin pm.nx) * (yin - clampBase yin pm.ny))) := by
  constructor
  · rcases h00 : pm.cell (clampBase xin pm.nx) (clampBase yin pm.ny) with _ | ⟨f00, g00⟩ <;>
      rcases h10 : pm.cell (clampBase xin pm.nx + 1) (clampBase yin pm.ny) with _ | ⟨f10, g10⟩ <;>
        rcases h01 : pm.cell (clampBase xin pm.nx) (clampBase yin pm.ny + 1) with _ | ⟨f01, g01⟩ <;>
          rcases h11 : pm.cell (clampBase xin pm.nx + 1) (clampBase yin pm.ny + 1) with _ | ⟨f11, g11⟩ <;>
            simp [interpolate_point, h00, h10, h01, h11]
  · intro f00 g00 f10 g10 f01 g01 f11 g11 h00 h10 h01 h11
    simp [interpolate_point, h00, h10, h01, h11]

/-- C8 witness: on the identity 2x2 map the interpolant at `(1/2, 3/4)` is
`(1/2, 3/4)`, obtained through `C8_interpolate_point_contract`. -/
theorem C8_witness : interpolate_point pmId2 (1/2) (3/4) = some (1/2, 3/4) := by
  have h := (C8_interpolate_point_contract pmId2 (1/2) (3/4)).2
    0 0 1 0 0 1 1 1 (by with_unfolding_all rfl) (by with_unfolding_all rfl)
    (by with_unfolding_all rfl) (by with_unfolding_all rfl)
  rw [h]
  with_unfolding_all decide

/-- A successful golden-section step increments the iteration counter. -/
theorem invStep_niter (par : DrizPar) (xyout : ℚ × ℚ) (st st' : InvState)
    (h : invStep par xyout st = some st') : st'.niter = st.niter + 1 := by
  simp only [invStep] at h
  split at h
  · simp only [Option.some.injEq] at h
    subst h
    rfl
  · simp at h

/-- The loop never pushes the counter beyond `max (initial counter) 50`. -/
theorem invGo_niter_le (par : DrizPar) (xyout : ℚ × ℚ) :
    ∀ (fuel : ℕ) (st st' : InvState), invGo par xyout fuel st = some st' →
      st'.niter ≤ max st.niter 50 := by
  intro fuel
  induction fuel with
  | zero =>
      intro st st' h
      simp only [invGo, Option.some.injEq] at h
      subst h
      exact le_max_left _ _
  | succ n ih =>
      intro st st' h
      unfold invGo at h
      split at h
      · rename_i hg
        cases hs : invStep par xyout st with
        | none => rw [hs] at h; simp at h
        | some st2 =>
            rw [hs] at h
            have h2 := ih st2 st' h
            have hn := invStep_niter par xyout st st2 hs
            have hlt : st.niter < 50 := hg.2
            omega
      · simp only [Option.some.injEq] at h
        subst h
        exact le_max_left _ _

/-- The loop body is skipped as soon as both tracked widths are at or
below the tolerance: the state is returned unchanged. -/
theorem invGo_stops (par : DrizPar) (xyout : ℚ × ℚ) (fuel : ℕ) (s : InvState)
    (h1 : s.dx ≤ MAX_INV_ERR) (h2 : s.dy ≤ MAX_INV_ERR) :
    invGo par xyout fuel s = some s := by
  cases fuel with
  | zero => rfl
  | succ n =>
      unfold invGo
      rw [if_neg]
      rintro ⟨hx | hy, -⟩
      · exact absurd hx (not_lt.mpr h1)
      · exact absurd hy (not_lt.mpr h2)

/-- If the loop ends with a width still above the tolerance, the counter
reached the iteration budget (here given enough fuel for the budget). -/
theorem invGo_exit (par : DrizPar) (xyout : ℚ × ℚ) :
    ∀ (fuel : ℕ) (s st' : InvState), 50 ≤ fuel + s.niter →
      invGo par xyout fuel s = some st' →
      MAX_INV_ERR < st'.dx ∨ MAX_INV_ERR < st'.dy → 50 ≤ st'.niter := by
  intro fuel
  induction fuel with
  | zero =>
      intro s st' hf h _
      simp only [invGo, Option.some.injEq] at h
      subst h
      simpa using hf
  | succ n ih =>
      intro s st' hf h hd
      unfold invGo at h
      split at h
      · cases hs : invStep par xyout s with
        | none => rw [hs] at h; simp at h
        | some s2 =>
            rw [hs] at h
            have hn := invStep_niter par xyout s s2 hs
            exact ih s2 st' (by omega) h hd
      · rename_i hg
        simp only [Option.some.injEq] at h
        subst h
        by_contra hlt
        exact hg ⟨hd, Nat.lt_of_not_le hlt⟩

/-- C2 (amended): the golden-section loop of `invert_pixmap` performs at
most 50 iterations and exits as soon as both bracketing-rectangle widths
`xmax - xmin` and `ymax - ymin` (the quantities the source compares with
the 0.03 tolerance, i.e. the full widths, not the half-widths of the
claim) are at or below 0.03; and whenever the loop ends with a width
still above the tolerance (so the 50-iteration budget is exhausted), the
function reports status 1 while still writing the centre of the final
bracketing rectangle into the output point. -/
theorem C2_inversion_loop_contract (par : DrizPar) (xyout : ℚ × ℚ)
    (st : InvState) (h : invFinalSt par xyout = some st) :
    st.niter ≤ 50 ∧
    (∀ (fuel : ℕ) (s : InvState), s.dx ≤ MAX_INV_ERR → s.dy ≤ MAX_INV_ERR →
      invGo par xyout fuel s = some s) ∧
    (MAX_INV_ERR < st.dx ∨ MAX_INV_ERR < st.dy →
      invert_pixmap par xyout =
        (1, some ((st.xmin + st.xmax) / 2, (st.ymin + st.ymax) / 2))) := by
  have h' : invGo par xyout 50 (invInit par) = some st := h
  have hle := invGo_niter_le par xyout 50 (invInit par) st h'
  have hinit : (invInit par).niter = 0 := rfl
  have hle' : st.niter ≤ 50 := by omega
  refine ⟨hle', fun fuel s h1 h2 => invGo_stops par xyout fuel s h1 h2, fun hd => ?_⟩
  have h50 := invGo_exit par xyout 50 (invInit par) st (by omega) h' hd
  have heq : st.niter = 50 := le_antisymm hle' h50
  unfold invert_pixmap
  rw [h]
  simp [heq]

/-- C2 counterexample: over the identity 2x2 map with valid region
`[0,1] x [0,1]` and target `(0.3, 0.4)`, after 7 iterations both
bracketing-rectangle half-widths are already at or below the 0.03
tolerance (the widths are about 0.052), yet the loop does not terminate
there: it runs on to iteration 9, because the source compares the full
widths with the tolerance. -/
theorem C2_counterexample_half_width_claim :
    ((invGo parC2 (3/10, 4/10) 7 (invInit parC2)).map
      (fun s => decide (s.niter = 7 ∧ s.dx / 2 ≤ MAX_INV_ERR ∧
        s.dy / 2 ≤ MAX_INV_ERR ∧ MAX_INV_ERR < s.dx))) = some true ∧
    (invFinalSt parC2 (3/10, 4/10)).map InvState.niter = some 9 := by
  constructor
  · with_unfolding_all decide
  · with_unfolding_all decide

/-- C2 witness: the loop contract instantiated on the identity-map
inversion; in particular the final iteration count is at most 50. -/
theorem C2_witness :
    ((invFinalSt parC2 (3/10, 4/10)).map InvState.niter).getD 51 ≤ 50 := by
  cases h : invFinalSt parC2 (3/10, 4/10) with
  | none => exact absurd h (by with_unfolding_all decide)
  | some st =>
      simpa using (C2_inversion_loop_contract parC2 (3/10, 4/10) st h).1

/-- C6 (amended): `get_scanline_limits` returns OutOfBounds (code 2)
whenever the recorded clip y-range is non-empty and `y` lies outside
`[0, ymax]` (the source tests `y < 0`, not `y < ymin`, at line 752), or
whenever the pixel row `[y-0.5, y+0.5]` lies outside the widened polygon
span `[min_y, max_y + 1]` (line 759). -/
theorem C6_out_of_bounds_conditions (s : Scanner) (y : ℤ)
    (h : (s.ymax ≥ s.ymin ∧ (y < 0 ∨ y > s.ymax)) ∨
         ((y : ℚ) + 1/2 ≤ s.min_y ∨ (y : ℚ) - 1/2 ≥ s.max_y + 1)) :
    (get_scanline_limits s y).1 = 2 := by
  simp only [get_scanline_limits]
  split
  · rfl
  · rename_i h1
    split
    · rfl
    · rename_i h2
      rcases h with hc | hc
      · exact absurd hc h1
      · exact absurd hc h2

/-- C6 counterexample: the scanner built from `rectC6` records the clip
y-range `[5, 10]`; the row `y = 2` is strictly below the configured
`ymin = 5` (and inside the polygon's y-span, so the claim's other clause
does not fire), yet the call returns code 0 with an interval instead of
OutOfBounds, because the source only tests `y < 0`. -/
theorem C6_counterexample_row_below_clip_ymin :
    sC6.ymin = 5 ∧ (2 : ℤ) < sC6.ymin ∧ (0 : ℤ) ≤ 2 ∧ (2 : ℤ) ≤ sC6.ymax ∧
    ¬(((2 : ℤ) : ℚ) + 1/2 ≤ sC6.min_y ∨ ((2 : ℤ) : ℚ) - 1/2 ≥ sC6.max_y + 1) ∧
    (get_scanline_limits sC6 2).1 = 0 ∧
    (get_scanline_limits sC6 2).2.1 = some (0, 9) := by
  with_unfolding_all decide

/-- C6 witness: a row with `y = -3` (clip range `[5, 10]` non-empty and
`y < 0`) reported OutOfBounds through `C6_out_of_bounds_conditions`. -/
theorem C6_witness : (get_scanline_limits sC6 (-3)).1 = 2 :=
  C6_out_of_bounds_conditions sC6 (-3)
    (Or.inl ⟨by with_unfolding_all decide, Or.inl (by decide)⟩)

/-- A call on a scanner with a cleared cursor never produces an interval:
it returns ScanEnded (1) or OutOfBounds (2), writes no limits, and leaves
the scanner unchanged. -/
theorem scan_ended_stays (s : Scanner) (y : ℤ)
    (h : s.left = none ∨ s.right = none) :
    ((get_scanline_limits s y).1 = 1 ∨ (get_scanline_limits s y).1 = 2) ∧
    (get_scanline_limits s y).2.1 = none ∧
    (get_scanline_limits s y).2.2 = s := by
  simp only [get_scanline_limits]
  split
  · exact ⟨Or.inr rfl, rfl, rfl⟩
  · split
    · exact ⟨Or.inr rfl, rfl, rfl⟩
    · rcases hL : s.left with _ | li
      · simp [hL]
      · rcases hR : s.right with _ | ri
        · simp [hL, hR]
        · rcases h with h | h
          · rw [hL] at h; exact absurd h (by simp)
          · rw [hR] at h; exact absurd h (by simp)

/-- A ScanEnded (code 1) return leaves the scanner with a cleared cursor. -/
theorem scan_code1_clears (s : Scanner) (y : ℤ)
    (h : (get_scanline_limits s y).1 = 1) :
    (get_scanline_limits s y).2.2.left = none ∨
    (get_scanline_limits s y).2.2.right = none := by
  rcases hr : get_scanline_limits s y with ⟨c, xl, s2⟩
  rw [hr] at h
  simp only at h
  subst h
  simp only [get_scanline_limits] at hr
  repeat' split at hr
  all_goals simp at hr
  all_goals try (obtain ⟨h1, h2⟩ := hr; subst h2; simp)
  rename_i hnb
  rcases hL : s.left with _ | li
  · exact Or.inl rfl
  · rcases hR : s.right with _ | ri
    · exact Or.inr rfl
    · exact (hnb li ri hL hR).elim

/-- On a scanner whose cursor is cleared, every later call in any call
sequence returns ScanEnded or OutOfBounds and writes no limits. -/
theorem scanSeq_ended (s : Scanner) (h : s.left = none ∨ s.right = none) :
    ∀ ys : List ℤ, ((scanSeq s ys).all
      fun r => decide ((r.1 = 1 ∨ r.1 = 2) ∧ r.2 = none)) = true := by
  intro ys
  induction ys generalizing s with
  | nil => rfl
  | cons y ys ih =>
      have h2 := scan_ended_stays s y h
      simp only [scanSeq, List.all_cons, Bool.and_eq_true]
      refine ⟨by simp [h2.1, h2.2.1], ?_⟩
      rw [h2.2.2]
      exact ih s h

/-- C4 (amended): once a call returns ScanEnded (code 1), every subsequent
call on that scanner returns ScanEnded or — when `y` fails the bounds
checks that precede the cursor test — OutOfBounds (code 2); it never
again produces an interval until the scanner is reconstructed. -/
theorem C4_scan_ended_terminal (s : Scanner) (y : ℤ)
    (h : (get_scanline_limits s y).1 = 1) (ys : List ℤ) :
    ((scanSeq (get_scanline_limits s y).2.2 ys).all
      fun r => decide ((r.1 = 1 ∨ r.1 = 2) ∧ r.2 = none)) = true :=
  scanSeq_ended _ (scan_code1_clears s y h) ys

/-- C4 counterexample: on the scanner built from `triC4`, the call with
`y = 2` returns ScanEnded, but the next call with the non-decreasing row
`y = 3` returns OutOfBounds (code 2), not ScanEnded, because the clip and
span checks run before the cleared-cursor test. -/
theorem C4_counterexample_out_of_bounds_after_end :
    (get_scanline_limits sC4 2).1 = 1 ∧ (2 : ℤ) ≤ 3 ∧
    (get_scanline_limits (get_scanline_limits sC4 2).2.2 3).1 = 2 ∧
    (2 : ℕ) ≠ 1 := by
  with_unfolding_all decide

/-- C4 witness: `C4_scan_ended_terminal` applied to the `triC4` scanner
after its `y = 2` call, over the subsequent rows `3, -1, 5`. -/
theorem C4_witness :
    ((scanSeq (get_scanline_limits sC4 2).2.2 [3, -1, 5]).all
      fun r => decide ((r.1 = 1 ∨ r.1 = 2) ∧ r.2 = none)) = true :=
  C4_scan_ended_terminal sC4 2 (by with_unfolding_all decide) [3, -1, 5]

/-- One walk-body execution increments the ghost iteration counter by
exactly one. -/
theorem walkBody_iters (p q : List Vertex) (k : ℕ) (st : WalkState) :
    (walkBody p q k st).iters = st.iters + 1 := rfl

/-- Lemma: `append_vertex` never stores past the fixed capacity: the resulting
length is bounded by the larger of the incoming length and the capacity. -/
theorem append_vertex_length (l : List Vertex) (v : Vertex) :
    ((append_vertex l v).2).length ≤ max l.length (2 * IMAGE_OUTLINE_NPTS) := by
  have h16 : 2 * IMAGE_OUTLINE_NPTS = 16 := rfl
  unfold append_vertex
  repeat' split
  all_goals simp_all
  all_goals omega

/-- Lemma: `append_vertex` preserves the capacity invariant. -/
theorem append_vertex_le_cap (l : List Vertex) (v : Vertex)
    (h : l.length ≤ 2 * IMAGE_OUTLINE_NPTS) :
    ((append_vertex l v).2).length ≤ 2 * IMAGE_OUTLINE_NPTS := by
  have h1 := append_vertex_length l v
  omega

/-- Lemma: `wFoundFinish` does not touch the output polygon. -/
theorem wFoundFinish_pq (pin qin : Bool) (r : WalkState × Bool) :
    ((wFoundFinish pin qin r).1).pq = r.1.pq := by
  unfold wFoundFinish
  split <;> rfl

/-- Lemma: `wEmitThen` only changes the output polygon through the already
performed append, provided the advance preserves it. -/
theorem wEmitThen_pq (r : WalkState × Bool) (next : WalkState → WalkState)
    (hn : ∀ s, (next s).pq = s.pq) :
    (wEmitThen r next).pq = r.1.pq := by
  unfold wEmitThen
  split
  · rfl
  · exact hn r.1

/-- Lemma: `advP` leaves the output polygon unchanged. -/
theorem advP_pq (p : List Vertex) (m : ℕ) (s : WalkState) :
    (advP p m s).pq = s.pq := rfl

/-- Lemma: `advQ` leaves the output polygon unchanged. -/
theorem advQ_pq (q : List Vertex) (s : WalkState) :
    (advQ q s).pq = s.pq := rfl

/-- The crossing handler preserves the output-polygon capacity invariant
(every write goes through `append_vertex`). -/
theorem walkFound_pq_le (k : ℕ) (t u d : ℚ) (pin qin : Bool) (st : WalkState)
    (h : st.pq.length ≤ 2 * IMAGE_OUTLINE_NPTS) :
    ((walkFound k t u d pin qin st).1).pq.length ≤ 2 * IMAGE_OUTLINE_NPTS := by
  unfold walkFound
  split
  · rw [wFoundFinish_pq]
    repeat' split
    all_goals simp only [wAppend]
    all_goals first | exact h | exact append_vertex_le_cap _ _ h
  · exact h

/-- The advance step preserves the output-polygon capacity invariant. -/
theorem walkAdvance_pq_le (p q : List Vertex) (sa d : ℚ) (pin qin : Bool)
    (st2 : WalkState) (h : st2.pq.length ≤ 2 * IMAGE_OUTLINE_NPTS) :
    (walkAdvance p q sa d pin qin st2).pq.length ≤ 2 * IMAGE_OUTLINE_NPTS := by
  unfold walkAdvance
  repeat' split
  all_goals
    first
      | exact h
      | (rw [wEmitThen_pq _ _ (advP_pq p _)]
         simp only [wAppend]
         exact append_vertex_le_cap _ _ h)
      | (rw [wEmitThen_pq _ _ (advQ_pq q)]
         simp only [wAppend]
         exact append_vertex_le_cap _ _ h)
      | (simp only [advP_pq, advQ_pq]; exact h)

/-- One walk-body execution preserves the output-polygon capacity
invariant. -/
theorem walkBodyAux_pq_le (p q : List Vertex) (k : ℕ) (st : WalkState)
    (h : st.pq.length ≤ 2 * IMAGE_OUTLINE_NPTS) :
    (walkBodyAux p q k st).pq.length ≤ 2 * IMAGE_OUTLINE_NPTS := by
  simp only [walkBodyAux]
  split
  · exact walkFound_pq_le _ _ _ _ _ _ _ h
  · exact walkAdvance_pq_le _ _ _ _ _ _ _ (walkFound_pq_le _ _ _ _ _ _ _ h)

/-- The capacity invariant carries over `walkBody`. -/
theorem walkBody_pq_le (p q : List Vertex) (k : ℕ) (st : WalkState)
    (h : st.pq.length ≤ 2 * IMAGE_OUTLINE_NPTS) :
    (walkBody p q k st).pq.length ≤ 2 * IMAGE_OUTLINE_NPTS :=
  walkBodyAux_pq_le p q k st h

/-- The edge-tracing loop executes its body at most `fuel` times. -/
theorem walkGo_iters (p q : List Vertex) :
    ∀ (fuel k : ℕ) (st : WalkState),
      (walkGo p q fuel k st).iters ≤ st.iters + fuel := by
  intro fuel
  induction fuel with
  | zero => intro k st; simp [walkGo]
  | succ n ih =>
      intro k st
      unfold walkGo
      split
      · omega
      · have h1 := ih (k + 1) (walkBody p q k st)
        have h2 := walkBody_iters p q k st
        omega

/-- The edge-tracing loop preserves the output-polygon capacity
invariant. -/
theorem walkGo_pq_le (p q : List Vertex) :
    ∀ (fuel k : ℕ) (st : WalkState), st.pq.length ≤ 2 * IMAGE_OUTLINE_NPTS →
      (walkGo p q fuel k st).pq.length ≤ 2 * IMAGE_OUTLINE_NPTS := by
  intro fuel
  induction fuel with
  | zero => intro k st h; exact h
  | succ n ih =>
      intro k st h
      unfold walkGo
      split
      · exact h
      · exact ih (k + 1) (walkBody p q k st) (walkBody_pq_le p q k st h)

/-- Lemma: `simplify_polygon` never lengthens a polygon. -/
theorem simplify_polygon_length_le (p : List Vertex) :
    (simplify_polygon p).length ≤ p.length := by
  unfold simplify_polygon
  split
  · exact le_refl _
  · exact le_trans (List.length_filterMap_le _ _) (by simp)

/-- Lemma: `orient_ccw` preserves the vertex count. -/
theorem orient_ccw_length (cm : Vertex) (p : List Vertex) :
    (orient_ccw cm p).length = p.length := by
  simp only [orient_ccw]
  repeat' split
  all_goals simp

/-- C3 (amended): the general-case edge-tracing loop of
`intersect_convex_polygons` executes at most `2*(|p|+|q|) + 1` edge-pair
iterations — the source loop bound (line 516) is inclusive
(`k <= 2*(p->npv + q->npv)`), admitting one more iteration than the
claimed `2*(|p|+|q|)` — so the intersection always terminates. -/
theorem C3_walk_iteration_bound (cmP cmQ : Vertex) (p q : List Vertex)
    (hp : 3 ≤ p.length) (hq : 3 ≤ q.length) :
    (intersect_convex_polygons cmP cmQ p q).iters ≤
      2 * (p.length + q.length) + 1 := by
  simp only [intersect_convex_polygons]
  split
  · simp
  · split
    · simp
    · split
      · simp
      · have h := walkGo_iters (orient_ccw cmP p) (orient_ccw cmQ q)
          (2 * ((orient_ccw cmP p).length + (orient_ccw cmQ q).length) + 1) 0
          ⟨0, 0, vget (orient_ccw cmP p) ((orient_ccw cmP p).length - 1),
           vget (orient_ccw cmP p) 0,
           vget (orient_ccw cmQ q) ((orient_ccw cmQ q).length - 1),
           vget (orient_ccw cmQ q) 0, -2, ⟨0, 0⟩, 0, [], 0, [], false⟩
        have h2 : (2 : ℕ) * (p.length + q.length) + 1 =
            2 * ((orient_ccw cmP p).length + (orient_ccw cmQ q).length) + 1 := by
          rw [orient_ccw_length, orient_ccw_length]
        rw [h2]
        simpa using h

/-- C3 witness: the iteration bound instantiated on the disjoint
triangles `pT`, `qT`. -/
theorem C3_witness :
    (intersect_convex_polygons cm0 cm0 pT qT).iters ≤
      2 * (pT.length + qT.length) + 1 :=
  C3_walk_iteration_bound cm0 cm0 pT qT (by decide) (by decide)

/-- C9: `append_vertex` (a) never stores past the capacity
`2 * IMAGE_OUTLINE_NPTS = 16`, (b) returns failure (1) without growing a
polygon whose count has reached the capacity, (c) silently skips (without
storing) a vertex equal within the 1e-12 tolerance to the current last
vertex, and (d) consequently every polygon `intersect_convex_polygons`
emits from inputs within capacity has at most 16 vertices. -/
theorem C9_polygon_capacity :
    (∀ (l : List Vertex) (v : Vertex),
      ((append_vertex l v).2).length ≤ max l.length (2 * IMAGE_OUTLINE_NPTS)) ∧
    (∀ (l : List Vertex) (v : Vertex), 2 * IMAGE_OUTLINE_NPTS ≤ l.length →
      ¬equal_vertices (vget l (l.length - 1)) v VERTEX_ATOL →
      append_vertex l v = (1, l)) ∧
    (∀ (l : List Vertex) (v : Vertex), 0 < l.length →
      equal_vertices (vget l (l.length - 1)) v VERTEX_ATOL →
      append_vertex l v = (0, l)) ∧
    (∀ (cmP cmQ : Vertex) (p q : List Vertex),
      p.length ≤ 2 * IMAGE_OUTLINE_NPTS → q.length ≤ 2 * IMAGE_OUTLINE_NPTS →
      ((intersect_convex_polygons cmP cmQ p q).pq).length ≤
        2 * IMAGE_OUTLINE_NPTS) := by
  have h16 : 2 * IMAGE_OUTLINE_NPTS = 16 := rfl
  refine ⟨append_vertex_length, ?_, ?_, ?_⟩
  · intro l v hcap hdup
    unfold append_vertex
    rw [if_neg (fun hc => hdup hc.2)]
    split
    · rfl
    · simp [hcap]
  · intro l v h0 hdup
    unfold append_vertex
    rw [if_pos ⟨h0, hdup⟩]
  · intro cmP cmQ p q hp hq
    simp only [intersect_convex_polygons]
    split
    · simpa using hq
    · split
      · exact le_trans (simplify_polygon_length_le _)
          (by rw [orient_ccw_length]; exact hp)
      · split
        · exact le_trans (simplify_polygon_length_le _)
            (by rw [orient_ccw_length]; exact hq)
        · exact le_trans (simplify_polygon_length_le _)
            (walkGo_pq_le _ _ _ 0 _ (by simp))

/-- C9 witness: the capacity contract on a full 16-vertex polygon and on
the triangle intersection `pT`, `qT`. -/
theorem C9_witness :
    append_vertex big16 ⟨100, 100⟩ = (1, big16) ∧
    ((intersect_convex_polygons cm0 cm0 pT qT).pq).length ≤
      2 * IMAGE_OUTLINE_NPTS := by
  refine ⟨C9_polygon_capacity.2.1 big16 ⟨100, 100⟩ (by decide)
      (by with_unfolding_all decide),
    C9_polygon_capacity.2.2.2 cm0 cm0 pT qT (by decide) (by decide)⟩

/-- The running minimum scan computes the fold of `min` over the
remaining vertices. -/
theorem scanMin_val : ∀ (l : List Vertex) (k bi : ℕ) (bv : ℚ),
    (scanMin l k bi bv).2 = l.foldl (fun a w => min a w.y) bv := by
  intro l
  induction l with
  | nil => intro k bi bv; rfl
  | cons v rest ih =>
      intro k bi bv
      simp only [scanMin, List.foldl_cons]
      split
      · rename_i hlt
        rw [ih]
        congr 1
        exact (min_eq_right (le_of_lt hlt)).symm
      · rename_i hge
        rw [ih]
        congr 1
        exact (min_eq_left (le_of_not_lt hge)).symm

/-- The running maximum scan computes the fold of `max` over the
remaining vertices. -/
theorem scanMax_val : ∀ (l : List Vertex) (k bi : ℕ) (bv : ℚ),
    (scanMax l k bi bv).2 = l.foldl (fun a w => max a w.y) bv := by
  intro l
  induction l with
  | nil => intro k bi bv; rfl
  | cons v rest ih =>
      intro k bi bv
      simp only [scanMax, List.foldl_cons]
      split
      · rename_i hlt
        rw [ih]
        congr 1
        exact (max_eq_right (le_of_lt hlt)).symm
      · rename_i hge
        rw [ih]
        congr 1
        exact (max_eq_left (le_of_not_lt hge)).symm

/-- A successful `_setup_scanner` tail computes the output row range from
the polygon's vertex y-extremes and the clip `ymax` taken from the
parameters. -/
theorem setupScanner_range (par : DrizPar) (L : List Vertex) (ov : Bool)
    (h : (setupScanner par L ov).status = 0) :
    (setupScanner par L ov).ymin =
      max 0 (truncInt (polyMinY L + 1/2 + 2 * MAX_INV_ERR)) ∧
    (setupScanner par L ov).ymax =
      min par.ymax (truncInt (polyMaxY L + 2 * MAX_INV_ERR)) ∧
    (setupScanner par L ov).s.ymax = par.ymax ∧
    (setupScanner par L ov).poly = L := by
  by_cases h3 : L.length < 3
  · have hs : (setupScanner par L ov).status = 1 := by
      simp only [setupScanner, init_scanner]
      rw [if_pos h3]
    rw [hs] at h
    exact absurd h (by decide)
  · cases L with
    | nil => simp at h3
    | cons v rest =>
        simp only [setupScanner, init_scanner]
        rw [if_neg h3]
        refine ⟨?_, ?_, rfl, trivial⟩
        · simp only [scanMin_val]
          rfl
        · simp only [scanMax_val]
          rfl

/-- C7 (amended): on every `init_image_scanner` call whose scanner
initialization succeeds, the returned row range is the intersection of
the scanner polygon's y-range — lower end padded by `0.5 + 2*MAX_INV_ERR`
and truncated, upper end padded by `2*MAX_INV_ERR` and truncated — with
`[0, par->ymax]`, where `par->ymax` is the clip bound recorded in the
scanner from the input valid region, not the output buffer height of the
claim. -/
theorem C7_usable_row_range (par : DrizPar) (odimy odimx : ℤ)
    (cmP cmQ cmPQ : Vertex)
    (h : (init_image_scanner par odimy odimx cmP cmQ cmPQ).status = 0) :
    (init_image_scanner par odimy odimx cmP cmQ cmPQ).ymin =
      max 0 (truncInt
        (polyMinY (init_image_scanner par odimy odimx cmP cmQ cmPQ).poly +
          1/2 + 2 * MAX_INV_ERR)) ∧
    (init_image_scanner par odimy odimx cmP cmQ cmPQ).ymax =
      min par.ymax (truncInt
        (polyMaxY (init_image_scanner par odimy odimx cmP cmQ cmPQ).poly +
          2 * MAX_INV_ERR)) ∧
    (init_image_scanner par odimy odimx cmP cmQ cmPQ).s.ymax = par.ymax := by
  have hr := setupScanner_range par (iisPoly par odimy odimx cmP cmQ cmPQ).1
    (iisPoly par odimy odimx cmP cmQ cmPQ).2 h
  simp only [init_image_scanner]
  rw [hr.2.2.2]
  exact ⟨hr.1, hr.2.1, hr.2.2.1⟩

/-- C7 counterexample: over the folding pixel map `pmC7` with input valid
region `[0,2] x [0,2]` and a 2-row, 3-column output buffer, the whole
pipeline succeeds (status 0, valid overlap), yet the returned upper row
bound is 2: it exceeds `output-buffer-height - 1 = 1`, so the range is
not the claimed intersection with `[0, output-buffer-height - 1]` — the
source takes `MIN(s->ymax, ...)` with the input valid region's `ymax`. -/
theorem C7_counterexample_range_not_clipped_to_output_height :
    rC7.status = 0 ∧ rC7.s.overlap_valid = true ∧ rC7.ymax = 2 ∧
    ¬(rC7.ymax ≤ 2 - 1) := by
  refine ⟨by with_unfolding_all decide, by with_unfolding_all decide,
    by with_unfolding_all decide, by with_unfolding_all decide⟩

/-- C7 witness: the amended row-range formula instantiated on the
successful `pmC7` run. -/
theorem C7_witness :
    rC7.ymin = max 0 (truncInt (polyMinY rC7.poly + 1/2 + 2 * MAX_INV_ERR)) ∧
    rC7.ymax =
      min parC7.ymax (truncInt (polyMaxY rC7.poly + 2 * MAX_INV_ERR)) ∧
    rC7.s.ymax = parC7.ymax :=
  C7_usable_row_range parC7 2 3 cm0 cm0 cm0 (by with_unfolding_all decide)

end Drizzle
